import Mathlib

/-!
# Verification of the satellite altitude query front-end

A shallow embedding of the query-normalization and request-lifecycle logic of
`src/app/page.tsx` (a React client page), together with theorems settling the
frozen claims about it.

Embedding conventions:

* JavaScript numbers are modelled by `SatAlt.JSNum`: a rational (exact value)
  or one of the non-finite values `Infinity`, `-Infinity`, `NaN`.  All concrete
  numbers appearing in the claims (400, 420, 410, sample counts, ...) are
  exactly representable as binary64 floats and the operations applied to them
  are exact, so the rational model agrees with the float semantics on every
  computation a claim mentions.
* The React state cells `loading` / `error` / `data` become the record
  `SatAlt.ClientState`; `handleSubmit` becomes a transition function on a
  model state consisting of the client state plus the list of in-flight
  requests.  The `await` points of `handleSubmit` split it into a synchronous
  submission phase and a resolution phase; resolutions are delivered as
  events, in arbitrary arrival order, as on the single-threaded JS event loop.
* `new Date(localString)` / `Date.prototype.toISOString` are modelled by a
  fixed-width parser for the `datetime-local` value shapes and a Gregorian
  calendar (proleptic, as ECMA-262 prescribes) epoch conversion.  The process
  time zone is a fixed offset in minutes east of UTC, passed explicitly.
-/

namespace SatAlt

/-! ## JavaScript number model -/

/-- A JavaScript number: an exact finite value (rational model of a binary64
float), `Infinity`, `-Infinity`, or `NaN`.  The sign of zero is not modelled;
no computation in this development distinguishes `0` from `-0`. -/
inductive JSNum where
  | num : ℚ → JSNum
  | posInf : JSNum
  | negInf : JSNum
  | nan : JSNum
deriving DecidableEq, Repr

/-- Two-argument minimum as used by `Math.min`: any `NaN` operand poisons the
result, infinities compare as expected. -/
def jsMin2 : JSNum → JSNum → JSNum
  | .nan, _ => .nan
  | _, .nan => .nan
  | .negInf, _ => .negInf
  | _, .negInf => .negInf
  | .posInf, b => b
  | a, .posInf => a
  | .num a, .num b => .num (min a b)

/-- Two-argument maximum as used by `Math.max`. -/
def jsMax2 : JSNum → JSNum → JSNum
  | .nan, _ => .nan
  | _, .nan => .nan
  | .posInf, _ => .posInf
  | _, .posInf => .posInf
  | .negInf, b => b
  | a, .negInf => a
  | .num a, .num b => .num (max a b)

/-- JavaScript addition on the modelled numbers (exact in the finite case). -/
def jsAdd : JSNum → JSNum → JSNum
  | .nan, _ => .nan
  | _, .nan => .nan
  | .posInf, .negInf => .nan
  | .negInf, .posInf => .nan
  | .posInf, _ => .posInf
  | _, .posInf => .posInf
  | .negInf, _ => .negInf
  | _, .negInf => .negInf
  | .num a, .num b => .num (a + b)

/-- JavaScript subtraction on the modelled numbers. -/
def jsSub : JSNum → JSNum → JSNum
  | .nan, _ => .nan
  | _, .nan => .nan
  | .posInf, .posInf => .nan
  | .negInf, .negInf => .nan
  | .posInf, _ => .posInf
  | .negInf, _ => .negInf
  | _, .posInf => .negInf
  | _, .negInf => .posInf
  | .num a, .num b => .num (a - b)

/-- JavaScript division on the modelled numbers.  In particular `0 / 0 = NaN`,
which is the case the statistics card hits on an empty series. -/
def jsDiv : JSNum → JSNum → JSNum
  | .nan, _ => .nan
  | _, .nan => .nan
  | .posInf, .posInf => .nan
  | .posInf, .negInf => .nan
  | .negInf, .posInf => .nan
  | .negInf, .negInf => .nan
  | .posInf, .num b => if b < 0 then .negInf else .posInf
  | .negInf, .num b => if b < 0 then .posInf else .negInf
  | .num _, .posInf => .num 0
  | .num _, .negInf => .num 0
  | .num a, .num b =>
    if b = 0 then (if a = 0 then .nan else if a > 0 then .posInf else .negInf)
    else .num (a / b)

/-- `true` iff the value is neither finite nor meaningful as a statistic:
`NaN`, `Infinity` or `-Infinity`. -/
def JSNum.nonFinite : JSNum → Bool
  | .num _ => false
  | _ => true

/-! ## Data model of the HTTP payload (`AltitudeResponse`) -/

/-- One sample of the returned series: `{ t: string; alt_km: number }`. -/
structure DataPoint where
  t : String
  alt_km : JSNum
deriving DecidableEq, Repr

/-- The `meta` object of the success payload. -/
structure RespMeta where
  tle_source : String
  tle_epoch : String
  earth_radius_km : JSNum
deriving DecidableEq, Repr

/-- The success payload (`AltitudeResponse` interface in the source). -/
structure AltitudeResponse where
  norad_id : Int
  start : String
  «end» : String
  step_seconds : Int
  points : List DataPoint
  meta : RespMeta
deriving DecidableEq, Repr

/-! ## The statistics card

The statistics card of the page computes, inline in the JSX, over
`data.points`:

* `Math.min(...data.points.map(p => p.alt_km))`
* `Math.max(...data.points.map(p => p.alt_km))`
* `data.points.reduce((sum, p) => sum + p.alt_km, 0) / data.points.length`
* `Math.max(...) - Math.min(...)`

`Math.min()` applied to an empty spread returns `Infinity`, `Math.max()`
returns `-Infinity`, and the mean divides `0` by `0`.  There is no guard on
`data.points.length`: the card is rendered whenever `data` is non-null. -/

/-- `Math.min(...l)`: fold of `jsMin2` starting from `Infinity`, which is what
the spread call evaluates to (including `Math.min() = Infinity` on no
arguments). -/
def mathMin (l : List JSNum) : JSNum := l.foldl jsMin2 .posInf

/-- `Math.max(...l)`, starting from `-Infinity`. -/
def mathMax (l : List JSNum) : JSNum := l.foldl jsMax2 .negInf

/-- `l.reduce((sum, x) => sum + x, 0)`. -/
def jsSum (l : List JSNum) : JSNum := l.foldl jsAdd (.num 0)

/-- The mean as computed by the statistics card: the reduce-sum divided by the
length, with no emptiness guard. -/
def meanOf (l : List JSNum) : JSNum := jsDiv (jsSum l) (.num l.length)

/-- The range as computed by the statistics card: `Math.max(...) -
Math.min(...)`. -/
def rangeOf (l : List JSNum) : JSNum := jsSub (mathMax l) (mathMin l)

/-- The altitude sequence the statistics card works on: `data.points.map(p =>
p.alt_km)`. -/
def altitudes (r : AltitudeResponse) : List JSNum := r.points.map DataPoint.alt_km

/-! ## Proleptic Gregorian calendar

ECMA-262 prescribes the proleptic Gregorian calendar for both parsing of Date
Time Strings and `toISOString` formatting.  `daysFromCivil` is the standard
closed form for the day number (days since 1970-01-01) of a calendar date,
used by the `new Date(...)` model; `civilFromDays` is the standard inverse
(Howard Hinnant's `civil_from_days` algorithm), used by the `toISOString`
model.  Years are arbitrary integers, months `1..12`, days `1..31`. -/

/-- Gregorian leap-year test, as in ECMA-262 `DaysInYear`. -/
def isLeap (y : Int) : Bool := y % 4 == 0 && (y % 100 != 0 || y % 400 == 0)

/-- Number of days in month `m` (`1..12`) given the leap flag of the year. -/
def daysInMonth (leap : Bool) (m : Nat) : Nat :=
  if m = 2 then (if leap then 29 else 28)
  else if m = 4 ∨ m = 6 ∨ m = 9 ∨ m = 11 then 30
  else 31

/-- Day number (days since 1970-01-01, can be negative) of the Gregorian date
`y-m-d`.  Standard closed form: shift the year so it starts in March, count
leap days with floor divisions (Lean's `Int` division by a positive literal is
floor division), and offset so that 1970-01-01 is day 0. -/
def daysFromCivil (y : Int) (m d : Nat) : Int :=
  let y' : Int := if m ≤ 2 then y - 1 else y
  let mp : Nat := if 2 < m then m - 3 else m + 9
  365 * y' + y' / 4 - y' / 100 + y' / 400 + ((153 * mp + 2) / 5 + d : Nat) - 1 - 719468

/-- Day-of-era (`0..146096`) at which era-year `y` (`0..399`, March-based)
starts. -/
def f400 (y : Nat) : Nat := 365 * y + y / 4 - y / 100

/-- The year-extraction numerator of Hinnant's `civil_from_days`: maps a
day-of-era to `365 * yearOfEra + dayOfYearCorrection`. -/
def gAdj (doe : Nat) : Nat := doe - doe / 1460 + doe / 36524 - doe / 146096

/-- Day-of-era just after era-year `y` ends (the last era-year, 399, is leap
and runs to the end of the era). -/
def upper400 (y : Nat) : Nat := if y = 399 then 146097 else f400 (y + 1)

/-- Leap test for the in-era year offset `t` (`1..400`): agrees with `isLeap`
on `400 * era + t` because `400 * era` vanishes mod 4, 100 and 400. -/
def leapEY (t : Nat) : Bool := t % 4 == 0 && (t % 100 != 0 || t % 400 == 0)

/-- Hinnant's `civil_from_days` restricted to one era: maps a day-of-era
(`0..146096`) to `(yearOfEra, month, day)` with March-based era years. -/
def civilOfDoe (doe : Nat) : Nat × Nat × Nat :=
  let yoe := gAdj doe / 365
  let doy := doe - (365 * yoe + yoe / 4 - yoe / 100)
  let mp := (5 * doy + 2) / 153
  let d := doy - (153 * mp + 2) / 5 + 1
  let m := if mp < 10 then mp + 3 else mp - 9
  (yoe, m, d)

/-- In-era inverse of `civilOfDoe`: day-of-era of `(yearOfEra, month, day)`. -/
def doeOfCivil (yoe m d : Nat) : Nat :=
  let mp := if 2 < m then m - 3 else m + 9
  f400 yoe + ((153 * mp + 2) / 5 + d - 1)

/-- Inverse of `daysFromCivil`: Gregorian date `(y, m, d)` of a day number
(Hinnant's `civil_from_days`). -/
def civilFromDays (z : Int) : Int × Nat × Nat :=
  let z' := z + 719468
  let era := z' / 146097
  let doe := (z' % 146097).toNat
  let c := civilOfDoe doe
  (400 * era + c.1 + (if c.2.1 ≤ 2 then 1 else 0), c.2.1, c.2.2)

/-- Per-era-year facts feeding the calendar inverse proof, checked for all
`y ≤ 399` by kernel evaluation:  `gAdj` maps the year's day interval into
`[365 y, 365 y + 364]`, the interval has at most 366 days, and it has 366 days
exactly when the (March-based) year is leap. -/
def yearChk (y : Nat) : Bool :=
  decide (365 * y ≤ gAdj (f400 y)) &&
  decide (gAdj (upper400 y - 1) ≤ 365 * y + 364) &&
  decide (f400 y < upper400 y) &&
  decide (upper400 y - f400 y ≤ 366) &&
  ((upper400 y - f400 y == 366) == leapEY (y + 1))

/-- Per-day-of-year facts feeding the month-extraction proof, checked for all
`doy ≤ 365` by kernel evaluation: bounds and day-validity of the `(month,
day)` pair extracted from a March-based day-of-year. -/
def monthChk (doy : Nat) : Bool :=
  let mp := (5 * doy + 2) / 153
  let d := doy - (153 * mp + 2) / 5 + 1
  let m := if mp < 10 then mp + 3 else mp - 9
  decide (1 ≤ m) && decide (m ≤ 12) && decide (1 ≤ d) &&
  decide (d ≤ daysInMonth true m) &&
  (decide (doy ≤ 364) || (m == 2 && d == 29)) &&
  (decide (365 ≤ doy) || decide (d ≤ daysInMonth false m))

/-- Divide-and-conquer bounded checker: `chkRange p fuel lo len` evaluates
`p` on every point of `[lo, lo + len)`, splitting the interval in halves so
that kernel reduction stays at logarithmic depth. -/
def chkRange (p : Nat → Bool) (fuel lo len : Nat) : Bool :=
  match fuel with
  | 0 => len == 0
  | fuel' + 1 =>
    if len == 0 then true
    else if len == 1 then p lo
    else chkRange p fuel' lo (len / 2) && chkRange p fuel' (lo + len / 2) (len - len / 2)

/-! ## Timestamp strings

`toUTCISOString` in the source does `new Date(localDateTime)` on a
`datetime-local` form value, throws `Error("Invalid date/time format")` when
the result is an Invalid Date, and otherwise returns
`d.toISOString().replace(".000Z", "Z")`.

* `parseLocalFields` models ECMA-262 parsing of the two value shapes a
  `datetime-local` input produces, `YYYY-MM-DDTHH:mm:ss` and
  `YYYY-MM-DDTHH:mm` (no time-zone designator, hence interpreted as local
  time): fixed-width digit runs, field ranges checked against the real
  calendar (month `01..12`, day up to the month length, minute/second
  `00..59`, hour `00..23` or the special `24:00:00`).  Out-of-range fields
  yield an Invalid Date in ECMA-262, i.e. `none` here.
* `formatUTC` models `toISOString` composed with the `.replace(".000Z", "Z")`:
  since every instant this development manipulates is a whole second, the
  millisecond part is always `.000` and the replacement strips it exactly;
  the model therefore prints the fraction-free form directly.  Years `0..9999`
  print as 4 digits, years outside that range in the expanded `±YYYYYY` form,
  as `toISOString` does.
* Instants are epoch seconds (`Int`); the process time zone is `tzMin`
  minutes east of UTC, fixed for a run, so a local wall-clock field tuple
  denotes epoch `fieldsEpoch - 60 * tzMin`. -/

/-- The digit character of `n % 10`. -/
def toDigit (n : Nat) : Char := Char.ofNat (48 + n % 10)

/-- Numeric value of a digit character (garbage on non-digits; parsers guard
with `isDig` first). -/
def digitVal (c : Char) : Nat := c.toNat - 48

/-- Is `c` one of `0..9`? -/
def isDig (c : Char) : Bool := 48 ≤ c.toNat && c.toNat ≤ 57

/-- Two-digit zero-padded print of `n ≤ 99`. -/
def pad2 (n : Nat) : List Char := [toDigit (n / 10), toDigit n]

/-- Four-digit zero-padded print of `n ≤ 9999`. -/
def pad4 (n : Nat) : List Char :=
  [toDigit (n / 1000), toDigit (n / 100), toDigit (n / 10), toDigit n]

/-- Six-digit zero-padded print of `n ≤ 999999` (expanded-year format). -/
def pad6 (n : Nat) : List Char :=
  [toDigit (n / 100000), toDigit (n / 10000), toDigit (n / 1000),
   toDigit (n / 100), toDigit (n / 10), toDigit n]

/-- Value of two digit characters. -/
def dv2 (a b : Char) : Nat := 10 * digitVal a + digitVal b

/-- Value of four digit characters. -/
def dv4 (a b c d : Char) : Nat :=
  1000 * digitVal a + 100 * digitVal b + 10 * digitVal c + digitVal d

/-- Value of six digit characters. -/
def dv6 (a b c d e f : Char) : Nat :=
  100000 * digitVal a + 10000 * digitVal b + 1000 * digitVal c +
  100 * digitVal d + 10 * digitVal e + digitVal f

/-- A parsed local wall-clock field tuple (year `0..9999` enforced by the
four-digit shape). -/
structure DT where
  year : Nat
  month : Nat
  day : Nat
  hour : Nat
  minute : Nat
  second : Nat
deriving DecidableEq, Repr

/-- Field validity per the ECMA-262 Date Time String grammar and semantics:
real calendar day, minute/second `00..59`, hour `00..23`, with hour `24`
admitted when minutes and seconds are zero. -/
def validFields (y : Int) (mo d h mi s : Nat) : Bool :=
  1 ≤ mo && mo ≤ 12 && 1 ≤ d && d ≤ daysInMonth (isLeap y) mo &&
  mi ≤ 59 && s ≤ 59 && (h ≤ 23 || (h == 24 && mi == 0 && s == 0))

/-- Epoch seconds of a field tuple read in UTC. -/
def epochOfFields (y : Int) (mo d h mi s : Nat) : Int :=
  86400 * daysFromCivil y mo d + 3600 * h + 60 * mi + s

/-- Epoch seconds of a `DT` read in UTC. -/
def dtToEpoch (dt : DT) : Int :=
  epochOfFields dt.year dt.month dt.day dt.hour dt.minute dt.second

/-- Parse a `datetime-local` value shape (`YYYY-MM-DDTHH:mm:ss` or
`YYYY-MM-DDTHH:mm`) into its fields, validating against the real calendar.
`none` models an Invalid Date. -/
def parseLocalFields (cs : List Char) : Option DT :=
  match cs with
  | [y1, y2, y3, y4, c1, m1, m2, c2, d1, d2, c3, h1, h2, c4, i1, i2, c5, s1, s2] =>
    if c1 = '-' && c2 = '-' && c3 = 'T' && c4 = ':' && c5 = ':' &&
       isDig y1 && isDig y2 && isDig y3 && isDig y4 && isDig m1 && isDig m2 &&
       isDig d1 && isDig d2 && isDig h1 && isDig h2 && isDig i1 && isDig i2 &&
       isDig s1 && isDig s2 &&
       validFields (dv4 y1 y2 y3 y4) (dv2 m1 m2) (dv2 d1 d2) (dv2 h1 h2)
         (dv2 i1 i2) (dv2 s1 s2) then
      some ⟨dv4 y1 y2 y3 y4, dv2 m1 m2, dv2 d1 d2, dv2 h1 h2, dv2 i1 i2, dv2 s1 s2⟩
    else none
  | [y1, y2, y3, y4, c1, m1, m2, c2, d1, d2, c3, h1, h2, c4, i1, i2] =>
    if c1 = '-' && c2 = '-' && c3 = 'T' && c4 = ':' &&
       isDig y1 && isDig y2 && isDig y3 && isDig y4 && isDig m1 && isDig m2 &&
       isDig d1 && isDig d2 && isDig h1 && isDig h2 && isDig i1 && isDig i2 &&
       validFields (dv4 y1 y2 y3 y4) (dv2 m1 m2) (dv2 d1 d2) (dv2 h1 h2)
         (dv2 i1 i2) 0 then
      some ⟨dv4 y1 y2 y3 y4, dv2 m1 m2, dv2 d1 d2, dv2 h1 h2, dv2 i1 i2, 0⟩
    else none
  | _ => none

/-- Parse a UTC timestamp string of the shape `toUTCISOString` produces
(`YYYY-MM-DDTHH:mm:ssZ`, or the expanded `±YYYYYY-MM-DDTHH:mm:ssZ`), back to
the absolute instant (epoch seconds) it denotes.  This is the read-back
direction of the round-trip property. -/
def parseAbsolute (cs : List Char) : Option Int :=
  match cs with
  | [y1, y2, y3, y4, c1, m1, m2, c2, d1, d2, c3, h1, h2, c4, i1, i2, c5, s1, s2, c6] =>
    if c1 = '-' && c2 = '-' && c3 = 'T' && c4 = ':' && c5 = ':' && c6 = 'Z' &&
       isDig y1 && isDig y2 && isDig y3 && isDig y4 && isDig m1 && isDig m2 &&
       isDig d1 && isDig d2 && isDig h1 && isDig h2 && isDig i1 && isDig i2 &&
       isDig s1 && isDig s2 &&
       validFields (dv4 y1 y2 y3 y4) (dv2 m1 m2) (dv2 d1 d2) (dv2 h1 h2)
         (dv2 i1 i2) (dv2 s1 s2) then
      some (epochOfFields (dv4 y1 y2 y3 y4) (dv2 m1 m2) (dv2 d1 d2) (dv2 h1 h2)
        (dv2 i1 i2) (dv2 s1 s2))
    else none
  | [sg, y1, y2, y3, y4, y5, y6, c1, m1, m2, c2, d1, d2, c3, h1, h2, c4, i1, i2,
     c5, s1, s2, c6] =>
    if (sg = '+' || sg = '-') &&
       c1 = '-' && c2 = '-' && c3 = 'T' && c4 = ':' && c5 = ':' && c6 = 'Z' &&
       isDig y1 && isDig y2 && isDig y3 && isDig y4 && isDig y5 && isDig y6 &&
       isDig m1 && isDig m2 && isDig d1 && isDig d2 && isDig h1 && isDig h2 &&
       isDig i1 && isDig i2 && isDig s1 && isDig s2 &&
       !(sg = '-' && dv6 y1 y2 y3 y4 y5 y6 == 0) then
      let y : Int := if sg = '-' then -(dv6 y1 y2 y3 y4 y5 y6 : Int)
                     else (dv6 y1 y2 y3 y4 y5 y6 : Int)
      if validFields y (dv2 m1 m2) (dv2 d1 d2) (dv2 h1 h2) (dv2 i1 i2)
           (dv2 s1 s2) then
        some (epochOfFields y (dv2 m1 m2) (dv2 d1 d2) (dv2 h1 h2) (dv2 i1 i2)
          (dv2 s1 s2))
      else none
    else none
  | _ => none

/-- Model of `d.toISOString().replace(".000Z", "Z")` on a whole-second instant
`e` (epoch seconds): Gregorian date and time-of-day of `e` by floor division,
printed fraction-free with a `Z` designator.  Years outside the 4-digit range
print in the expanded `±YYYYYY` form.  `none` models the `RangeError` thrown
outside the representable range (unreachable from any input this development
constructs). -/
def formatUTC (e : Int) : Option String :=
  let day := e / 86400
  let tod := (e % 86400).toNat
  let c := civilFromDays day
  let tail :=
    '-' :: pad2 c.2.1 ++ '-' :: pad2 c.2.2 ++
    'T' :: pad2 (tod / 3600) ++ ':' :: pad2 (tod / 60 % 60) ++ ':' :: pad2 (tod % 60) ++ ['Z']
  if 0 ≤ c.1 ∧ c.1 ≤ 9999 then some ⟨pad4 c.1.toNat ++ tail⟩
  else if c.1 < 0 ∧ -999999 ≤ c.1 then some ⟨'-' :: (pad6 (-c.1).toNat ++ tail)⟩
  else if 0 ≤ c.1 ∧ c.1 ≤ 999999 then some ⟨'+' :: (pad6 c.1.toNat ++ tail)⟩
  else none

/-- The source's `toUTCISOString`: parse the `datetime-local` value as local
wall-clock time in a zone `tzMin` minutes east of UTC, throw
`"Invalid date/time format"` on an Invalid Date, otherwise format the instant
as a UTC ISO-8601 string without fractional seconds. -/
def toUTCISOString (tzMin : Int) (s : String) : Except String String :=
  match parseLocalFields s.data with
  | none => .error "Invalid date/time format"
  | some dt =>
    match formatUTC (dtToEpoch dt - 60 * tzMin) with
    | none => .error "Invalid time value"
    | some out => .ok out

/-! ## Request construction (`URLSearchParams` and the fetch URL)

`handleSubmit` builds
`new URLSearchParams({ n, start: startUTC, end: endUTC, step_seconds })` and
fetches `` `${backendUrl}/altitude?${params.toString()}` ``.  A request is
modelled as the base URL, the path, and the ordered key/value list;
serialization follows the `application/x-www-form-urlencoded` rules
`URLSearchParams.toString` uses (space to `+`, unreserved characters `*-._`
and alphanumerics verbatim, everything else percent-encoded per UTF-8 byte).
Construction is pure: no network I/O happens before the request is handed to
the transport. -/

/-- Characters `URLSearchParams` serializes verbatim. -/
def urlUnreserved (c : Char) : Bool :=
  c.isAlphanum || c = '*' || c = '-' || c = '.' || c = '_'

/-- Uppercase hexadecimal digit of `n % 16`. -/
def hexDigit (n : Nat) : Char :=
  if n % 16 < 10 then Char.ofNat (48 + n % 16) else Char.ofNat (55 + n % 16)

/-- UTF-8 bytes of a character. -/
def utf8Bytes (c : Char) : List Nat :=
  let n := c.toNat
  if n < 128 then [n]
  else if n < 2048 then [192 + n / 64, 128 + n % 64]
  else if n < 65536 then [224 + n / 4096, 128 + n / 64 % 64, 128 + n % 64]
  else [240 + n / 262144, 128 + n / 4096 % 64, 128 + n / 64 % 64, 128 + n % 64]

/-- `application/x-www-form-urlencoded` encoding of one character. -/
def encodeChar (c : Char) : List Char :=
  if c = ' ' then ['+']
  else if urlUnreserved c then [c]
  else (utf8Bytes c).foldr (fun b acc => '%' :: hexDigit (b / 16) :: hexDigit b :: acc) []

/-- `application/x-www-form-urlencoded` encoding of a string. -/
def encodeComponent (s : String) : String := ⟨s.data.foldr (fun c acc => encodeChar c ++ acc) []⟩

/-- `URLSearchParams.toString()` on an ordered key/value list: the encoded
`key=value` pairs joined with `&`. -/
def serializeQuery : List (String × String) → String
  | [] => ""
  | [p] => encodeComponent p.1 ++ "=" ++ encodeComponent p.2
  | p :: ps => encodeComponent p.1 ++ "=" ++ encodeComponent p.2 ++ "&" ++ serializeQuery ps

/-- A fully-specified query request: base URL, endpoint path, ordered query
parameters.  Pure data; issuing it is a separate resolution event. -/
structure Request where
  base : String
  path : String
  query : List (String × String)
deriving DecidableEq, Repr

/-- The URL `fetch` receives for a request. -/
def requestUrl (r : Request) : String := r.base ++ r.path ++ "?" ++ serializeQuery r.query

/-- The request `handleSubmit` builds from the (already normalized) inputs:
endpoint `/altitude`, parameters `n`, `start`, `end`, `step_seconds` in
insertion order. -/
def mkRequest (backendUrl noradId startUTC endUTC stepSeconds : String) : Request :=
  ⟨backendUrl, "/altitude",
    [("n", noradId), ("start", startUTC), ("end", endUTC), ("step_seconds", stepSeconds)]⟩

/-! ## Request lifecycle (`handleSubmit` and the state cells)

The page owns three state cells, `loading : boolean`, `error : string | null`
and `data : AltitudeResponse | null`.  `handleSubmit`:

1. synchronously sets `loading := true`, `error := null`, `data := null`;
2. normalizes both timestamps (`toUTCISOString`); a validation throw lands in
   the `catch`, which stores the message, and the `finally` resets `loading` —
   no fetch is issued;
3. otherwise builds the request and issues `fetch`, suspending; the
   continuation (response arrival) runs later on the event loop:
   * 2xx with a parseable body: `setData(result)`;
   * 2xx with an unparseable body: the `json()` rejection lands in `catch`,
     which stores its message;
   * non-2xx: the failure message is the body's `detail` if the body parses
     as JSON and `detail` is truthy, else the fallback
     `"Failed to fetch altitude data"`; `throw new Error(detail)` lands in
     `catch`, which stores exactly that message;
   * transport failure (fetch rejects): `catch` stores the transport message;
   and in every case `finally` resets `loading := false`.

No attempt identifier exists anywhere: a resolution writes the cells
unconditionally, whether or not a newer submission superseded its request.
The model keeps the list of unresolved in-flight requests; a resolution event
picks one of them (arrival order is arbitrary) and applies its outcome.  The
two `await`s of the success path are collapsed into one resolution event:
between them the handler touches no state, so the collapse preserves every
reachable cell state.  All modelled throw sites throw `Error` values, so the
`err instanceof Error` test in the catch always takes the message branch. -/

/-- The three React state cells. -/
structure ClientState where
  loading : Bool
  error : Option String
  data : Option AltitudeResponse
deriving DecidableEq, Repr

/-- The raw controlled form inputs of one submission. -/
structure FormInputs where
  noradId : String
  startTime : String
  endTime : String
  stepSeconds : String
deriving DecidableEq, Repr

/-- Process-wide configuration: `process.env.NEXT_PUBLIC_BACKEND_URL` (with
its default) and the process time zone. -/
structure EnvCfg where
  backendUrl : String
  tzMin : Int
deriving DecidableEq, Repr

/-- What the error-body parse of a non-2xx response yielded: `unparseable`
models a `response.json()` rejection (the inner catch ignores it), `parsed d`
a JSON body whose optional `detail` string is `d`. -/
inductive ErrBody where
  | unparseable : ErrBody
  | parsed : Option String → ErrBody
deriving DecidableEq, Repr

/-- The failure message of a non-2xx response:
`let detail = "Failed to fetch altitude data"; detail = errorData?.detail || detail`.
The `||` takes the parsed `detail` only when it is truthy — a present but
empty `detail` string is falsy and falls back. -/
def errMessageOf : ErrBody → String
  | .unparseable => "Failed to fetch altitude data"
  | .parsed none => "Failed to fetch altitude data"
  | .parsed (some s) => if s = "" then "Failed to fetch altitude data" else s

/-- How one in-flight request resolves. -/
inductive Outcome where
  | success : AltitudeResponse → Outcome
  | successBadBody : String → Outcome
  | httpFailure : ErrBody → Outcome
  | transportFailure : String → Outcome
deriving DecidableEq, Repr

/-- The model state: the three state cells plus the in-flight requests whose
resolutions have not arrived yet. -/
structure Model where
  st : ClientState
  pending : List Request
deriving DecidableEq, Repr

/-- The initial state: `useState(false)`, `useState(null)`, `useState(null)`. -/
def initModel : Model := ⟨⟨false, none, none⟩, []⟩

/-- The synchronous part of `handleSubmit`: reset the cells, normalize both
timestamps, and either fail with the validation message (no request issued)
or append the built request to the in-flight list and stay loading. -/
def submitStep (env : EnvCfg) (inp : FormInputs) (m : Model) : Model :=
  match toUTCISOString env.tzMin inp.startTime with
  | .error msg => ⟨⟨false, some msg, none⟩, m.pending⟩
  | .ok startUTC =>
    match toUTCISOString env.tzMin inp.endTime with
    | .error msg => ⟨⟨false, some msg, none⟩, m.pending⟩
    | .ok endUTC =>
      ⟨⟨true, none, none⟩,
        m.pending ++ [mkRequest env.backendUrl inp.noradId startUTC endUTC inp.stepSeconds]⟩

/-- The continuation of `handleSubmit` once a response arrives: the cell
writes of the success path, the catch branch, and the finally.  They are
unconditional — nothing compares the resolving request to the current one. -/
def applyOutcome (o : Outcome) (st : ClientState) : ClientState :=
  match o with
  | .success r => ⟨false, st.error, some r⟩
  | .successBadBody msg => ⟨false, some msg, st.data⟩
  | .httpFailure b => ⟨false, some (errMessageOf b), st.data⟩
  | .transportFailure msg => ⟨false, some msg, st.data⟩

/-- An event on the page's event loop: a user submission, or the arrival of
the response of the `i`-th in-flight request. -/
inductive Ev where
  | submit : FormInputs → Ev
  | resolve : Nat → Outcome → Ev
deriving DecidableEq, Repr

/-- One event-loop step.  A resolution event for an index with no in-flight
request is a no-op (no such event occurs in a run of the real page). -/
def stepEv (env : EnvCfg) (m : Model) : Ev → Model
  | .submit inp => submitStep env inp m
  | .resolve i o =>
    if i < m.pending.length then ⟨applyOutcome o m.st, m.pending.eraseIdx i⟩ else m

/-- Run a trace of events from a model state. -/
def runEv (env : EnvCfg) (m : Model) : List Ev → Model
  | [] => m
  | e :: es => runEv env (stepEv env m e) es

/-- Trace well-formedness for the sequential (non-overlapping) regime: every
resolution targets an existing in-flight request, and every submission
happens only when nothing is in flight. -/
def seqTrace (env : EnvCfg) (m : Model) : List Ev → Bool
  | [] => true
  | .submit inp :: es =>
      m.pending.isEmpty && seqTrace env (stepEv env m (.submit inp)) es
  | .resolve i o :: es =>
      decide (i < m.pending.length) && seqTrace env (stepEv env m (.resolve i o)) es

/-! ## Browser form validation

The `stepSeconds` input carries `required min="1" max="3600"` (and the
`noradId` input `required min="1"`).  A standard browser runs interactive
constraint validation on form submission: when a numeric input's value
violates its `min`/`max`, the `submit` event is not dispatched and
`handleSubmit` never runs.  `formConstraintsOk` models exactly the declared
constraints of the two numeric inputs for integer-string values, and
`formSubmit` the browser-level gate in front of `handleSubmit`. -/

/-- Numeric value of an all-digit string. -/
def digitsToNat (cs : List Char) : Nat := cs.foldl (fun a c => 10 * a + digitVal c) 0

/-- Does a (non-empty, all-digit, integer) input value satisfy
`required min="lo" max="hi"`? -/
def numConstraintOk (lo : Nat) (hi : Option Nat) (v : String) : Bool :=
  !v.data.isEmpty && v.data.all isDig &&
  lo ≤ digitsToNat v.data &&
  (match hi with | none => true | some h => digitsToNat v.data ≤ h)

/-- The declared constraints of the two numeric form inputs. -/
def formConstraintsOk (inp : FormInputs) : Bool :=
  numConstraintOk 1 none inp.noradId && numConstraintOk 1 (some 3600) inp.stepSeconds

/-- Browser-gated submission: `handleSubmit` runs only when the declared
constraints hold; otherwise the submit event is never dispatched. -/
def formSubmit (env : EnvCfg) (inp : FormInputs) (m : Model) : Model :=
  if formConstraintsOk inp then submitStep env inp m else m

/-- `true` iff normalization succeeded. -/
def okB : Except String String → Bool
  | .ok _ => true
  | .error _ => false

/-- Do the four `LifecycleState` variants cover the cells exactly once?
`Idle` (nothing set), `Pending` (loading, nothing else set), `Failed` (an
error, no result, not loading), `Succeeded` (a result, no error, not
loading).  `false` on the mixed cell contents the variants cannot encode,
e.g. an error and a result at the same time. -/
def exactlyOneVariant (st : ClientState) : Bool :=
  (st.loading && st.error.isNone && st.data.isNone) ||
  (!st.loading && st.error.isNone && st.data.isNone) ||
  (!st.loading && st.error.isSome && st.data.isNone) ||
  (!st.loading && st.error.isNone && st.data.isSome)

/-- The sequential-regime invariant behind the amended C3: either nothing is
in flight and the cells encode exactly one non-`Pending` variant, or exactly
one request is in flight and the cells are exactly `Pending`. -/
def seqInv (m : Model) : Bool :=
  (m.pending.isEmpty && !m.st.loading && exactlyOneVariant m.st) ||
  (m.pending.length == 1 && m.st == ⟨true, none, none⟩)

/-! ## Concrete fixtures used by witnesses and counterexamples -/

/-- A concrete configuration: the default backend URL, process zone UTC+9. -/
def exEnv : EnvCfg := ⟨"http://127.0.0.1:8000", 540⟩

/-- A concrete valid submission. -/
def exInpA : FormInputs := ⟨"25544", "2026-01-01T00:00:00", "2026-01-01T06:00:00", "60"⟩

/-- A second concrete valid submission. -/
def exInpB : FormInputs := ⟨"25544", "2026-01-02T00:00:00", "2026-01-02T06:00:00", "60"⟩

/-- A concrete success payload for the first submission. -/
def exRespA : AltitudeResponse :=
  ⟨25544, "2025-12-31T15:00:00Z", "2025-12-31T21:00:00Z", 60,
    [⟨"2025-12-31T15:00:00Z", .num 400⟩], ⟨"celestrak", "2025-12-30T00:00:00Z", .num 6371⟩⟩

/-- A concrete success payload for the second submission, distinct from
`exRespA`. -/
def exRespB : AltitudeResponse :=
  ⟨25544, "2026-01-01T15:00:00Z", "2026-01-01T21:00:00Z", 60,
    [⟨"2026-01-01T15:00:00Z", .num 410⟩], ⟨"celestrak", "2025-12-30T00:00:00Z", .num 6371⟩⟩

/-! # Theorems

First the generic and calendar lemmas, then one theorem per claim (with its
witness or counterexample where required). -/

/-- Soundness of the divide-and-conquer bounded checker. -/
theorem chkRange_sound (p : Nat → Bool) (fuel lo len : Nat)
    (h : chkRange p fuel lo len = true) :
    ∀ i, lo ≤ i → i < lo + len → p i = true := by
  induction fuel generalizing lo len with
  | zero =>
    simp [chkRange] at h
    intro i h1 h2
    omega
  | succ fuel' ih =>
    simp only [chkRange] at h
    by_cases h0 : len = 0
    · intro i h1 h2; omega
    · by_cases h1 : len = 1
      · subst h1
        simp at h
        intro i hi1 hi2
        have : i = lo := by omega
        subst this
        simpa using h
      · simp [h0, h1] at h
        intro i hi1 hi2
        by_cases hc : i < lo + len / 2
        · exact ih lo (len / 2) h.1 i hi1 hc
        · exact ih (lo + len / 2) (len - len / 2) h.2 i (by omega) (by omega)

/-- All 400 per-era-year facts hold (kernel evaluation of the checker). -/
theorem yearChk_all (y : Nat) (h : y ≤ 399) : yearChk y = true :=
  chkRange_sound yearChk 12 0 400 (by decide) y (Nat.zero_le y) (by omega)

/-- All 366 per-day-of-year facts hold (kernel evaluation of the checker). -/
theorem monthChk_all (doy : Nat) (h : doy ≤ 365) : monthChk doy = true :=
  chkRange_sound monthChk 12 0 366 (by decide) doy (Nat.zero_le doy) (by omega)

/-- `gAdj` grows by one-step increments. -/
theorem gAdj_le_succ (a : Nat) : gAdj a ≤ gAdj (a + 1) := by
  unfold gAdj
  omega

/-- `gAdj` is monotone. -/
theorem gAdj_mono {a b : Nat} (h : a ≤ b) : gAdj a ≤ gAdj b := by
  induction b with
  | zero => simp_all
  | succ b ih =>
    rcases Nat.lt_or_ge a (b + 1) with h' | h'
    · exact le_trans (ih (by omega)) (gAdj_le_succ b)
    · have : a = b + 1 := by omega
      subst this
      exact le_rfl

/-- Every day-of-era lies in the day interval of some era-year. -/
theorem doe_cover (doe : Nat) (h : doe < 146097) :
    ∃ y, y ≤ 399 ∧ f400 y ≤ doe ∧ doe < upper400 y := by
  have main : ∀ k y, y ≤ 399 → 399 - y ≤ k → f400 y ≤ doe →
      ∃ y', y' ≤ 399 ∧ f400 y' ≤ doe ∧ doe < upper400 y' := by
    intro k
    induction k with
    | zero =>
      intro y hy hk hf
      have : y = 399 := by omega
      subst this
      exact ⟨399, le_rfl, hf, by simpa [upper400] using h⟩
    | succ k ih =>
      intro y hy hk hf
      by_cases hup : doe < upper400 y
      · exact ⟨y, hy, hf, hup⟩
      · have hy' : y < 399 := by
          by_contra hc
          have : y = 399 := by omega
          subst this
          simp [upper400] at hup
          omega
        have : upper400 y = f400 (y + 1) := by simp [upper400]; omega
        exact ih (y + 1) (by omega) (by omega) (by omega)
  exact main 399 0 (by omega) (by omega) (by simp [f400])

/-- `civilOfDoe` is a section of `doeOfCivil` on one era, and its output is a
valid calendar date: era-year `0..399`, month `1..12`, day `1..` up to the
month length of the (March-shifted) year. -/
theorem civilOfDoe_spec (doe : Nat) (h : doe < 146097) :
    doeOfCivil (civilOfDoe doe).1 (civilOfDoe doe).2.1 (civilOfDoe doe).2.2 = doe ∧
    (civilOfDoe doe).1 ≤ 399 ∧
    1 ≤ (civilOfDoe doe).2.1 ∧ (civilOfDoe doe).2.1 ≤ 12 ∧
    1 ≤ (civilOfDoe doe).2.2 ∧
    (civilOfDoe doe).2.2 ≤
      daysInMonth (leapEY ((civilOfDoe doe).1 + if (civilOfDoe doe).2.1 ≤ 2 then 1 else 0))
        (civilOfDoe doe).2.1 := by
  obtain ⟨y, hy, hf, hup⟩ := doe_cover doe h
  have hchk := yearChk_all y hy
  simp only [yearChk, Bool.and_eq_true, decide_eq_true_eq] at hchk
  have h3 : f400 y < upper400 y := hchk.1.1.2
  have h4 : upper400 y - f400 y ≤ 366 := hchk.1.2
  have h5 : (upper400 y - f400 y == 366) = leapEY (y + 1) := by
    have := hchk.2
    exact (beq_iff_eq ..).mp this
  have hyoe : gAdj doe / 365 = y := by
    have h1 : 365 * y ≤ gAdj (f400 y) := hchk.1.1.1.1
    have h2 : gAdj (upper400 y - 1) ≤ 365 * y + 364 := hchk.1.1.1.2
    have l1 : gAdj (f400 y) ≤ gAdj doe := gAdj_mono hf
    have l2 : gAdj doe ≤ gAdj (upper400 y - 1) := gAdj_mono (by omega)
    omega
  have hfe : f400 y = 365 * y + y / 4 - y / 100 := rfl
  have hdoy365 : doe - (365 * y + y / 4 - y / 100) ≤ 365 := by omega
  unfold civilOfDoe doeOfCivil
  simp only [hyoe]
  set doy := doe - (365 * y + y / 4 - y / 100) with hdoyd
  have hmchk := monthChk_all doy hdoy365
  simp only [monthChk, Bool.and_eq_true, Bool.or_eq_true, decide_eq_true_eq,
    beq_iff_eq] at hmchk
  set mp := (5 * doy + 2) / 153 with hmpd
  set d := doy - (153 * mp + 2) / 5 + 1 with hdd
  obtain ⟨⟨⟨⟨⟨hm1, hm2⟩, hm3⟩, hm4⟩, hm5⟩, hm6⟩ := hmchk
  have hdoyLeap : doy = 365 → leapEY (y + 1) = true := by
    intro heq
    cases hlv : leapEY (y + 1)
    · rw [hlv] at h5
      have : upper400 y - f400 y ≠ 366 := by
        intro hc
        rw [hc] at h5
        simp at h5
      omega
    · rfl
  have hmple : mp ≤ 11 := by omega
  have hmval : (if mp < 10 then mp + 3 else mp - 9) = (if mp < 10 then mp + 3 else mp - 9) := rfl
  set m := if mp < 10 then mp + 3 else mp - 9 with hmd
  have hdim : d ≤ daysInMonth (leapEY (y + if m ≤ 2 then 1 else 0)) m := by
    by_cases hm2c : m ≤ 2
    · rw [if_pos hm2c]
      cases hlv : leapEY (y + 1)
      · rcases hm6 with h365 | hok
        · have : doy = 365 := by omega
          rw [hdoyLeap this] at hlv
          exact absurd hlv (by simp)
        · exact hok
      · exact hm4
    · rw [if_neg hm2c]
      simp only [Nat.add_zero]
      cases hlv : leapEY y
      · rcases hm6 with h365 | hok
        · have hdy : doy = 365 := by omega
          rcases hm5 with hle | ⟨hm2, _⟩
          · omega
          · omega
        · exact hok
      · exact hm4
  refine ⟨?_, hy, hm1, hm2, hm3, hdim⟩
  by_cases hmp10 : mp < 10
  · have hmv : m = mp + 3 := by rw [hmd, if_pos hmp10]
    rw [hmv, if_pos (show 2 < mp + 3 by omega)]
    omega
  · have hmv : m = mp - 9 := by rw [hmd, if_neg hmp10]
    rw [hmv, if_neg (show ¬ 2 < mp - 9 by omega)]
    omega

/-- Leapness only depends on the year mod 400. -/
theorem isLeap_shift (e : Int) (t : Nat) : isLeap (400 * e + t) = leapEY t := by
  rw [Bool.eq_iff_iff]
  simp only [isLeap, leapEY, Bool.and_eq_true, Bool.or_eq_true, beq_iff_eq, bne_iff_ne, ne_eq]
  omega

/-- `civilFromDays` is a section of `daysFromCivil` on all of `Int`, and its
output is a valid calendar date (month `1..12`, day up to the month length of
the output year). -/
theorem civilFromDays_spec (z : Int) :
    daysFromCivil (civilFromDays z).1 (civilFromDays z).2.1 (civilFromDays z).2.2 = z ∧
    1 ≤ (civilFromDays z).2.1 ∧ (civilFromDays z).2.1 ≤ 12 ∧
    1 ≤ (civilFromDays z).2.2 ∧
    (civilFromDays z).2.2 ≤
      daysInMonth (isLeap (civilFromDays z).1) (civilFromDays z).2.1 := by
  have hdoe : ((z + 719468) % 146097).toNat < 146097 := by omega
  have hspec := civilOfDoe_spec ((z + 719468) % 146097).toNat hdoe
  unfold civilFromDays
  simp only
  rcases hc : civilOfDoe ((z + 719468) % 146097).toNat with ⟨yoe, m, d⟩
  rw [hc] at hspec
  simp only at hspec
  obtain ⟨hinv, hy399, hm1, hm2, hd1, hdim⟩ := hspec
  simp only [doeOfCivil, f400] at hinv
  refine ⟨?_, hm1, hm2, hd1, ?_⟩
  · unfold daysFromCivil
    by_cases h2m : 2 < m
    · have hmle : ¬ m ≤ 2 := by omega
      rw [if_pos h2m] at hinv
      simp only [hmle, if_false, h2m, if_true]
      have e1 : (400 * ((z + 719468) / 146097) + (yoe : Int) + 0) / 4
          = 100 * ((z + 719468) / 146097) + ((yoe / 4 : Nat) : Int) := by omega
      have e2 : (400 * ((z + 719468) / 146097) + (yoe : Int) + 0) / 100
          = 4 * ((z + 719468) / 146097) + ((yoe / 100 : Nat) : Int) := by omega
      have e3 : (400 * ((z + 719468) / 146097) + (yoe : Int) + 0) / 400
          = (z + 719468) / 146097 := by omega
      omega
    · have hmle : m ≤ 2 := by omega
      rw [if_neg h2m] at hinv
      simp only [hmle, if_true, h2m, if_false]
      have e1 : (400 * ((z + 719468) / 146097) + (yoe : Int) + 1 - 1) / 4
          = 100 * ((z + 719468) / 146097) + ((yoe / 4 : Nat) : Int) := by omega
      have e2 : (400 * ((z + 719468) / 146097) + (yoe : Int) + 1 - 1) / 100
          = 4 * ((z + 719468) / 146097) + ((yoe / 100 : Nat) : Int) := by omega
      have e3 : (400 * ((z + 719468) / 146097) + (yoe : Int) + 1 - 1) / 400
          = (z + 719468) / 146097 := by omega
      omega
  · rw [show (400 * ((z + 719468) / 146097) + ↑yoe + if m ≤ 2 then (1 : Int) else 0)
        = 400 * ((z + 719468) / 146097) + ↑(yoe + if m ≤ 2 then 1 else 0) from by
          by_cases hm2c : m ≤ 2 <;> simp [hm2c] <;> omega]
    rw [isLeap_shift]
    exact hdim

/-- `toDigit` produces digit characters. -/
theorem toDigit_isDig (n : Nat) : isDig (toDigit n) = true := by
  have h : ∀ k, k < 10 → isDig (Char.ofNat (48 + k)) = true := by decide
  exact h (n % 10) (Nat.mod_lt n (by norm_num))

/-- `digitVal` reads back what `toDigit` printed. -/
theorem digitVal_toDigit (n : Nat) : digitVal (toDigit n) = n % 10 := by
  have h : ∀ k, k < 10 → digitVal (Char.ofNat (48 + k)) = k := by decide
  exact h (n % 10) (Nat.mod_lt n (by norm_num))

/-- Digit characters are not the decimal point. -/
theorem toDigit_ne_dot (n : Nat) : toDigit n ≠ '.' := by
  have h : ∀ k, k < 10 → Char.ofNat (48 + k) ≠ '.' := by decide
  exact h (n % 10) (Nat.mod_lt n (by norm_num))

/-- Two printed digits read back as the printed value. -/
theorem dv2_pad (n : Nat) (h : n ≤ 99) :
    dv2 (toDigit (n / 10)) (toDigit n) = n := by
  simp only [dv2, digitVal_toDigit]
  omega

/-- Four printed digits read back as the printed value. -/
theorem dv4_pad (n : Nat) (h : n ≤ 9999) :
    dv4 (toDigit (n / 1000)) (toDigit (n / 100)) (toDigit (n / 10)) (toDigit n) = n := by
  simp only [dv4, digitVal_toDigit]
  omega

/-- Six printed digits read back as the printed value. -/
theorem dv6_pad (n : Nat) (h : n ≤ 999999) :
    dv6 (toDigit (n / 100000)) (toDigit (n / 10000)) (toDigit (n / 1000))
      (toDigit (n / 100)) (toDigit (n / 10)) (toDigit n) = n := by
  simp only [dv6, digitVal_toDigit]
  omega

/-- No month is longer than 31 days. -/
theorem daysInMonth_le31 (leap : Bool) (m : Nat) : daysInMonth leap m ≤ 31 := by
  unfold daysInMonth
  split
  · split <;> omega
  · split <;> omega

/-- The character list underlying a literally built string. -/
theorem data_mk (l : List Char) : (⟨l⟩ : String).data = l := rfl

/-- Reading a formatted UTC timestamp back yields exactly the formatted
instant: `parseAbsolute` is a left inverse of `formatUTC`. -/
theorem parseAbsolute_formatUTC (e : Int) (out : String)
    (h : formatUTC e = some out) : parseAbsolute out.data = some e := by
  rcases hc : civilFromDays (e / 86400) with ⟨y, mo, d⟩
  have spec := civilFromDays_spec (e / 86400)
  rw [hc] at spec
  simp only at spec
  obtain ⟨hinv, hmo1, hmo12, hd1, hdim⟩ := spec
  have hd31 : d ≤ 31 := le_trans hdim (daysInMonth_le31 _ _)
  simp only [formatUTC, hc] at h
  set tod := (e % 86400).toNat with htodd
  have htodlt : tod < 86400 := by omega
  split_ifs at h with hy1 hy2 hy3
  · -- 4-digit year
    obtain ⟨hyl, hyu⟩ := hy1
    have hout := Option.some.inj h
    subst hout
    have hcast : ((y.toNat : Nat) : Int) = y := by omega
    have hvf : validFields ((y.toNat : Nat) : Int) mo d (tod / 3600) (tod / 60 % 60)
        (tod % 60) = true := by
      simp only [validFields, hcast, Bool.and_eq_true, Bool.or_eq_true,
        decide_eq_true_eq, beq_iff_eq]
      exact ⟨⟨⟨⟨⟨⟨hmo1, hmo12⟩, hd1⟩, hdim⟩, by omega⟩, by omega⟩, Or.inl (by omega)⟩
    simp only [data_mk, pad4, pad2, List.cons_append, List.nil_append, parseAbsolute]
    rw [dv4_pad y.toNat (by omega), dv2_pad mo (by omega), dv2_pad d (by omega),
      dv2_pad (tod / 3600) (by omega), dv2_pad (tod / 60 % 60) (by omega),
      dv2_pad (tod % 60) (by omega)]
    simp only [hvf, toDigit_isDig, decide_True, Bool.and_true, Bool.true_and, if_true]
    simp only [epochOfFields, hcast, hinv]
    congr 1
    omega
  · -- negative expanded year
    obtain ⟨hyl, hyu⟩ := hy2
    have hout := Option.some.inj h
    subst hout
    have hcast : (-(((-y).toNat : Nat) : Int)) = y := by omega
    have hvf : validFields y mo d (tod / 3600) (tod / 60 % 60) (tod % 60) = true := by
      simp only [validFields, Bool.and_eq_true, Bool.or_eq_true,
        decide_eq_true_eq, beq_iff_eq]
      exact ⟨⟨⟨⟨⟨⟨hmo1, hmo12⟩, hd1⟩, hdim⟩, by omega⟩, by omega⟩, Or.inl (by omega)⟩
    have hne' : (((-y).toNat == 0) : Bool) = false := by
      simp only [beq_eq_false_iff_ne, ne_eq]
      omega
    have ht3 : (((-y).toNat : Nat) : Int) = -y := by omega
    simp only [data_mk, pad6, pad2, List.cons_append, List.nil_append, parseAbsolute]
    rw [dv6_pad (-y).toNat (by omega), dv2_pad mo (by omega), dv2_pad d (by omega),
      dv2_pad (tod / 3600) (by omega), dv2_pad (tod / 60 % 60) (by omega),
      dv2_pad (tod % 60) (by omega)]
    simp [toDigit_isDig, hne', ht3, hvf, epochOfFields, hinv]
    omega
  · -- positive expanded year
    obtain ⟨hyl0, hyu⟩ := hy3
    have hout := Option.some.inj h
    subst hout
    have hyl : 10000 ≤ y := by omega
    have hcast : (((y.toNat : Nat) : Int)) = y := by omega
    have hvf : validFields y mo d (tod / 3600) (tod / 60 % 60) (tod % 60) = true := by
      simp only [validFields, Bool.and_eq_true, Bool.or_eq_true,
        decide_eq_true_eq, beq_iff_eq]
      exact ⟨⟨⟨⟨⟨⟨hmo1, hmo12⟩, hd1⟩, hdim⟩, by omega⟩, by omega⟩, Or.inl (by omega)⟩
    have ht3 : ((y.toNat : Nat) : Int) = y := by omega
    simp only [data_mk, pad6, pad2, List.cons_append, List.nil_append, parseAbsolute]
    rw [dv6_pad y.toNat (by omega), dv2_pad mo (by omega), dv2_pad d (by omega),
      dv2_pad (tod / 3600) (by omega), dv2_pad (tod / 60 % 60) (by omega),
      dv2_pad (tod % 60) (by omega)]
    simp [toDigit_isDig, ht3, hvf, epochOfFields, hinv]
    omega

/-- A digit character has value at most 9. -/
theorem isDig_le (c : Char) (h : isDig c = true) : digitVal c ≤ 9 := by
  simp only [isDig, Bool.and_eq_true, decide_eq_true_eq] at h
  unfold digitVal
  omega

/-- Field bounds of any successfully parsed `datetime-local` value. -/
theorem parseLocalFields_bounds (cs : List Char) (dt : DT)
    (hp : parseLocalFields cs = some dt) :
    dt.year ≤ 9999 ∧ 1 ≤ dt.month ∧ dt.month ≤ 12 ∧ 1 ≤ dt.day ∧ dt.day ≤ 31 ∧
    dt.hour ≤ 24 ∧ dt.minute ≤ 59 ∧ dt.second ≤ 59 := by
  unfold parseLocalFields at hp
  split at hp
  · rename_i y1 y2 y3 y4 c1 m1 m2 c2 d1 d2 c3 h1 h2 c4 i1 i2 c5 s1 s2
    split_ifs at hp with hcond
    simp only [Bool.and_eq_true, decide_eq_true_eq] at hcond
    obtain ⟨⟨⟨⟨⟨⟨⟨⟨⟨⟨⟨⟨⟨⟨⟨⟨⟨⟨⟨hc1, hc2⟩, hc3⟩, hc4⟩, hc5⟩, hy1⟩, hy2⟩, hy3⟩, hy4⟩,
      hm1d⟩, hm2d⟩, hd1d⟩, hd2d⟩, hh1d⟩, hh2d⟩, hi1d⟩, hi2d⟩, hs1d⟩, hs2d⟩, hvf⟩ := hcond
    injection hp with hp'
    subst hp'
    simp only [validFields, Bool.and_eq_true, Bool.or_eq_true, decide_eq_true_eq,
      beq_iff_eq] at hvf
    obtain ⟨⟨⟨⟨⟨⟨hmo1, hmo12⟩, hd1⟩, hdim⟩, hmi⟩, hs⟩, hh⟩ := hvf
    have hd31 := le_trans hdim (daysInMonth_le31 _ _)
    have hy : dv4 y1 y2 y3 y4 ≤ 9999 := by
      have e1 := isDig_le y1 hy1
      have e2 := isDig_le y2 hy2
      have e3 := isDig_le y3 hy3
      have e4 := isDig_le y4 hy4
      unfold dv4
      omega
    refine ⟨hy, hmo1, hmo12, hd1, hd31, ?_, hmi, hs⟩
    show dv2 h1 h2 ≤ 24
    omega
  · rename_i y1 y2 y3 y4 c1 m1 m2 c2 d1 d2 c3 h1 h2 c4 i1 i2
    split_ifs at hp with hcond
    simp only [Bool.and_eq_true, decide_eq_true_eq] at hcond
    obtain ⟨⟨⟨⟨⟨⟨⟨⟨⟨⟨⟨⟨⟨⟨⟨⟨hc1, hc2⟩, hc3⟩, hc4⟩, hy1⟩, hy2⟩, hy3⟩, hy4⟩,
      hm1d⟩, hm2d⟩, hd1d⟩, hd2d⟩, hh1d⟩, hh2d⟩, hi1d⟩, hi2d⟩, hvf⟩ := hcond
    injection hp with hp'
    subst hp'
    simp only [validFields, Bool.and_eq_true, Bool.or_eq_true, decide_eq_true_eq,
      beq_iff_eq] at hvf
    obtain ⟨⟨⟨⟨⟨⟨hmo1, hmo12⟩, hd1⟩, hdim⟩, hmi⟩, hs⟩, hh⟩ := hvf
    have hd31 := le_trans hdim (daysInMonth_le31 _ _)
    have hy : dv4 y1 y2 y3 y4 ≤ 9999 := by
      have e1 := isDig_le y1 hy1
      have e2 := isDig_le y2 hy2
      have e3 := isDig_le y3 hy3
      have e4 := isDig_le y4 hy4
      unfold dv4
      omega
    refine ⟨hy, hmo1, hmo12, hd1, hd31, ?_, hmi, hs⟩
    show dv2 h1 h2 ≤ 24
    omega
  · exact absurd hp (by simp)

/-- Crude bounds on the day number of a bounded calendar date. -/
theorem daysFromCivil_bounds (y : Int) (m d : Nat)
    (hy0 : 0 ≤ y) (hy : y ≤ 9999) (hm : m ≤ 12) (hd : d ≤ 31) :
    -719600 ≤ daysFromCivil y m d ∧ daysFromCivil y m d ≤ 3000000 := by
  simp only [daysFromCivil]
  split_ifs <;> omega

/-- For instants within the reachable range, the formatting step succeeds
(the model of the `toISOString` `RangeError` is unreachable). -/
theorem formatUTC_total (e : Int)
    (hlo : -62300000000 ≤ e) (hhi : e ≤ 260000000000) :
    ∃ out, formatUTC e = some out := by
  have hylo : -722000 ≤ e / 86400 := by omega
  have hyhi : e / 86400 ≤ 3010000 := by omega
  have hdoe : ((e / 86400 + 719468) % 146097).toNat < 146097 := by omega
  have hspec := civilOfDoe_spec ((e / 86400 + 719468) % 146097).toNat hdoe
  obtain ⟨-, hy399, -, -, -, -⟩ := hspec
  have hyb : -999999 ≤ (civilFromDays (e / 86400)).1 ∧
      (civilFromDays (e / 86400)).1 ≤ 999999 := by
    simp only [civilFromDays]
    by_cases hm2 : (civilOfDoe ((e / 86400 + 719468) % 146097).toNat).2.1 ≤ 2
    · rw [if_pos hm2]
      omega
    · rw [if_neg hm2]
      omega
  simp only [formatUTC]
  split_ifs with hc1 hc2 hc3
  · exact ⟨_, rfl⟩
  · exact ⟨_, rfl⟩
  · exact ⟨_, rfl⟩
  · exfalso
    omega

/-- The formatted output carries no fractional-second component: it contains
no decimal point at all. -/
theorem formatUTC_no_dot (e : Int) (out : String) (h : formatUTC e = some out) :
    '.' ∉ out.data := by
  simp only [formatUTC] at h
  split_ifs at h <;>
    (have hout := Option.some.inj h
     subst hout
     simp only [data_mk, pad4, pad6, pad2, List.cons_append, List.nil_append,
       List.mem_cons, List.mem_singleton, List.not_mem_nil]
     intro hc
     rcases hc with h' | h' | h' | h' | h' | h' | h' | h' | h' | h' | h' | h' | h' |
       h' | h' | h' | h' | h' | h' | h' | h' | h' | h' <;>
       first
         | exact toDigit_ne_dot _ h'.symm
         | simp at h')

/-- C5 round-trip, assembled: a parsed local input normalizes successfully,
and the output parses back to the instant the input denoted. -/
theorem toUTCISOString_ok (tz : Int) (s : String) (dt : DT)
    (htz : tz.natAbs ≤ 1440) (hp : parseLocalFields s.data = some dt) :
    ∃ out, toUTCISOString tz s = Except.ok out ∧
      parseAbsolute out.data = some (dtToEpoch dt - 60 * tz) ∧ '.' ∉ out.data := by
  obtain ⟨hy, hmo1, hmo12, hd1, hd31, hh, hmi, hs⟩ := parseLocalFields_bounds s.data dt hp
  have hdb := daysFromCivil_bounds dt.year dt.month dt.day (by omega) (by omega) hmo12 hd31
  have he : -62300000000 ≤ dtToEpoch dt - 60 * tz ∧
      dtToEpoch dt - 60 * tz ≤ 260000000000 := by
    unfold dtToEpoch epochOfFields at *
    omega
  obtain ⟨out, hfmt⟩ := formatUTC_total (dtToEpoch dt - 60 * tz) he.1 he.2
  refine ⟨out, ?_, parseAbsolute_formatUTC _ _ hfmt, formatUTC_no_dot _ _ hfmt⟩
  simp only [toUTCISOString, hp, hfmt]

/-! ## The claims -/

/-- C2, counterexample: on the empty sample sequence the statistics card does
return non-numeric values — the mean is `NaN` and the minimum is `Infinity` —
and no `EmptySeries` failure exists anywhere in the computation, refuting
"fails with an EmptySeries error and never returns a min, max, mean, or range
that is NaN or Infinity". -/
theorem emptySeries_counterexample :
    meanOf [] = JSNum.nan ∧ mathMin [] = JSNum.posInf := by decide

/-- C2, amended: for the empty sample sequence the aggregation does not fail
at all; it yields `min = Infinity`, `max = -Infinity`, `mean = NaN`,
`range = -Infinity`, every one of them non-finite, and the statistics card
displays them whenever a (possibly empty) result is present. -/
theorem emptySeries_values :
    mathMin [] = JSNum.posInf ∧ mathMax [] = JSNum.negInf ∧
    meanOf [] = JSNum.nan ∧ rangeOf [] = JSNum.negInf ∧
    (mathMin []).nonFinite = true ∧ (mathMax []).nonFinite = true ∧
    (meanOf []).nonFinite = true ∧ (rangeOf []).nonFinite = true := by decide

/-- C6: over the three-sample altitude sequence `[400, 420, 410]` the
statistics card computes exactly `min = 400`, `max = 420`, `mean = 410`,
`range = 20` (all four values exact in binary64, so the rational model agrees
with the float computation). -/
theorem stats_concrete (t1 t2 t3 : String) :
    mathMin (List.map DataPoint.alt_km
        [⟨t1, .num 400⟩, ⟨t2, .num 420⟩, ⟨t3, .num 410⟩]) = JSNum.num 400 ∧
    mathMax (List.map DataPoint.alt_km
        [⟨t1, .num 400⟩, ⟨t2, .num 420⟩, ⟨t3, .num 410⟩]) = JSNum.num 420 ∧
    meanOf (List.map DataPoint.alt_km
        [⟨t1, .num 400⟩, ⟨t2, .num 420⟩, ⟨t3, .num 410⟩]) = JSNum.num 410 ∧
    rangeOf (List.map DataPoint.alt_km
        [⟨t1, .num 400⟩, ⟨t2, .num 420⟩, ⟨t3, .num 410⟩]) = JSNum.num 20 := by
  refine ⟨?_, ?_, ?_, ?_⟩ <;>
    norm_num [mathMin, mathMax, meanOf, rangeOf, jsSum, List.foldl, jsMin2, jsMax2,
      jsAdd, jsSub, jsDiv, min_def, max_def]

/-- C8, counterexample: a non-2xx body that parses as JSON and contains the
`detail` field `""` yields the generic fallback message, not the (empty)
`detail` — the `||` in `errorData?.detail || detail` drops every falsy
`detail`.  This refutes "equals the response body's detail field whenever the
body parses as JSON containing one". -/
theorem detail_empty_counterexample :
    errMessageOf (.parsed (some "")) = "Failed to fetch altitude data" ∧
    "" ≠ "Failed to fetch altitude data" := by decide

/-- C8, amended: for every non-2xx response the stored failure message is the
body's `detail` field when the body parses as JSON containing a truthy
(non-empty) `detail`, and the generic fallback otherwise — body unparseable,
`detail` absent, or `detail` empty; and a resolution with such an outcome
stores exactly that message in the `error` cell. -/
theorem detail_or_fallback (env : EnvCfg) (m : Model) (i : Nat) (b : ErrBody)
    (hi : i < m.pending.length) (s : String) (hs : s ≠ "") :
    (stepEv env m (.resolve i (.httpFailure b))).st.error = some (errMessageOf b) ∧
    errMessageOf (.parsed (some s)) = s ∧
    errMessageOf (.parsed (some "")) = "Failed to fetch altitude data" ∧
    errMessageOf (.parsed none) = "Failed to fetch altitude data" ∧
    errMessageOf .unparseable = "Failed to fetch altitude data" := by
  refine ⟨?_, ?_, rfl, rfl, rfl⟩
  · simp [stepEv, hi, applyOutcome]
  · simp [errMessageOf, hs]

/-- C8 witness. -/
theorem detail_or_fallback_witness :
    (0 < (Model.mk ⟨true, none, none⟩ [⟨"http://127.0.0.1:8000", "/altitude", []⟩]).pending.length ∧
      "boom" ≠ "") ∧
    (stepEv exEnv (Model.mk ⟨true, none, none⟩ [⟨"http://127.0.0.1:8000", "/altitude", []⟩])
        (.resolve 0 (.httpFailure (.parsed (some "boom"))))).st.error =
      some (errMessageOf (.parsed (some "boom"))) :=
  ⟨⟨by decide, by decide⟩,
    (detail_or_fallback exEnv ⟨⟨true, none, none⟩, [⟨"http://127.0.0.1:8000", "/altitude", []⟩]⟩
      0 (.parsed (some "boom")) (by decide) "boom" (by decide)).1⟩

/-- C1, counterexample: two valid submissions `A` then `B`; `B`'s response
arrives first, then `A`'s stale response arrives — and overwrites `B`'s
result, because no attempt identifier exists and every resolution writes the
cells unconditionally.  The final state reflects `A`, refuting "after B's
response arrives the final state reflects B only, regardless of whether A's
response arrives before or after B's". -/
theorem stale_overwrite_counterexample :
    (runEv exEnv initModel
      [.submit exInpA, .submit exInpB, .resolve 1 (.success exRespB),
       .resolve 0 (.success exRespA)]).st.data = some exRespA ∧
    exRespA ≠ exRespB := by decide

/-- C1, amended: with no attempt-id guard in the code, the final state
reflects whichever response arrives last, not the newest submission.  If
`A`'s response arrives before `B`'s, the final state reflects `B` (the half
of the claim that holds); if `B`'s response arrives before `A`'s, the stale
`A` response overwrites `B`'s state. -/
theorem last_arrival_wins (env : EnvCfg) (inpA inpB : FormInputs)
    (rA rB : AltitudeResponse) (sA eA sB eB : String)
    (hAs : toUTCISOString env.tzMin inpA.startTime = .ok sA)
    (hAe : toUTCISOString env.tzMin inpA.endTime = .ok eA)
    (hBs : toUTCISOString env.tzMin inpB.startTime = .ok sB)
    (hBe : toUTCISOString env.tzMin inpB.endTime = .ok eB) :
    (runEv env initModel
      [.submit inpA, .submit inpB, .resolve 0 (.success rA),
       .resolve 0 (.success rB)]).st.data = some rB ∧
    (runEv env initModel
      [.submit inpA, .submit inpB, .resolve 1 (.success rB),
       .resolve 0 (.success rA)]).st.data = some rA := by
  constructor <;>
    simp [runEv, stepEv, submitStep, hAs, hAe, hBs, hBe, applyOutcome, initModel,
      List.eraseIdx]

/-- C1 witness. -/
theorem last_arrival_wins_witness :
    (toUTCISOString exEnv.tzMin exInpA.startTime = .ok "2025-12-31T15:00:00Z" ∧
     toUTCISOString exEnv.tzMin exInpA.endTime = .ok "2025-12-31T21:00:00Z" ∧
     toUTCISOString exEnv.tzMin exInpB.startTime = .ok "2026-01-01T15:00:00Z" ∧
     toUTCISOString exEnv.tzMin exInpB.endTime = .ok "2026-01-01T21:00:00Z") ∧
    (runEv exEnv initModel
      [.submit exInpA, .submit exInpB, .resolve 0 (.success exRespA),
       .resolve 0 (.success exRespB)]).st.data = some exRespB :=
  ⟨⟨by rfl, by rfl, by rfl, by rfl⟩,
    (last_arrival_wins exEnv exInpA exInpB exRespA exRespB
      "2025-12-31T15:00:00Z" "2025-12-31T21:00:00Z"
      "2026-01-01T15:00:00Z" "2026-01-01T21:00:00Z"
      (by rfl) (by rfl) (by rfl) (by rfl)).1⟩

/-- C10: every resolution of an in-flight attempt — success, bad success
body, non-2xx failure, or transport failure — resets `loading` to `false`
(the `finally` block), so a resolved attempt never leaves the controller
pending; and a submission always clears the previous result, and whenever it
issues a request it has also cleared the previous error (cells reset before
the fetch). -/
theorem resolution_resets (env : EnvCfg) (m : Model) (i : Nat) (o : Outcome)
    (inp : FormInputs) (hi : i < m.pending.length) :
    (stepEv env m (.resolve i o)).st.loading = false ∧
    (stepEv env m (.submit inp)).st.data = none ∧
    ((stepEv env m (.submit inp)).pending ≠ m.pending →
      (stepEv env m (.submit inp)).st = ⟨true, none, none⟩) := by
  refine ⟨?_, ?_, ?_⟩
  · cases o <;> simp [stepEv, hi, applyOutcome]
  · cases hS : toUTCISOString env.tzMin inp.startTime with
    | error msg => simp [stepEv, submitStep, hS]
    | ok sOut =>
      cases hE : toUTCISOString env.tzMin inp.endTime with
      | error msg => simp [stepEv, submitStep, hS, hE]
      | ok eOut => simp [stepEv, submitStep, hS, hE]
  · intro hne
    cases hS : toUTCISOString env.tzMin inp.startTime with
    | error msg => exact absurd (by simp [stepEv, submitStep, hS]) hne
    | ok sOut =>
      cases hE : toUTCISOString env.tzMin inp.endTime with
      | error msg => exact absurd (by simp [stepEv, submitStep, hS, hE]) hne
      | ok eOut => simp [stepEv, submitStep, hS, hE]

/-- C10 witness. -/
theorem resolution_resets_witness :
    (0 < (Model.mk ⟨true, none, none⟩ [⟨"http://127.0.0.1:8000", "/altitude", []⟩]).pending.length) ∧
    (stepEv exEnv (Model.mk ⟨true, none, none⟩ [⟨"http://127.0.0.1:8000", "/altitude", []⟩])
      (.resolve 0 (.transportFailure "Failed to fetch"))).st.loading = false :=
  ⟨by decide,
    (resolution_resets exEnv ⟨⟨true, none, none⟩, [⟨"http://127.0.0.1:8000", "/altitude", []⟩]⟩
      0 (.transportFailure "Failed to fetch") exInpA (by decide)).1⟩

/-- The sequential-regime invariant implies the cells encode exactly one
variant. -/
theorem seqInv_exactlyOne (m : Model) (h : seqInv m = true) :
    exactlyOneVariant m.st = true := by
  simp only [seqInv, Bool.or_eq_true, Bool.and_eq_true, beq_iff_eq] at h
  rcases h with ⟨⟨-, -⟩, h⟩ | ⟨-, h⟩
  · exact h
  · rw [h]
    decide

/-- The sequential-regime invariant is preserved along every well-formed
sequential trace. -/
theorem seqInv_run (env : EnvCfg) (tr : List Ev) :
    ∀ m, seqInv m = true → seqTrace env m tr = true →
      seqInv (runEv env m tr) = true := by
  induction tr with
  | nil =>
    intro m h _
    simpa [runEv] using h
  | cons e es ih =>
    intro m hInv hSeq
    cases e with
    | submit inp =>
      simp only [seqTrace, Bool.and_eq_true] at hSeq
      obtain ⟨hEmpty, hSeq'⟩ := hSeq
      have hp : m.pending = [] := by simpa [List.isEmpty_iff] using hEmpty
      refine ih _ ?_ hSeq'
      cases hS : toUTCISOString env.tzMin inp.startTime with
      | error msg => simp [stepEv, submitStep, hS, seqInv, exactlyOneVariant, hp]
      | ok sOut =>
        cases hE : toUTCISOString env.tzMin inp.endTime with
        | error msg => simp [stepEv, submitStep, hS, hE, seqInv, exactlyOneVariant, hp]
        | ok eOut => simp [stepEv, submitStep, hS, hE, seqInv, exactlyOneVariant, hp]
    | resolve i o =>
      simp only [seqTrace, Bool.and_eq_true, decide_eq_true_eq] at hSeq
      obtain ⟨hi, hSeq'⟩ := hSeq
      refine ih _ ?_ hSeq'
      simp only [seqInv, Bool.or_eq_true, Bool.and_eq_true, beq_iff_eq] at hInv
      rcases hInv with ⟨⟨hP, -⟩, -⟩ | ⟨hLen, hSt⟩
      · exfalso
        rw [List.isEmpty_iff] at hP
        rw [hP] at hi
        simp at hi
      · obtain ⟨r, hr⟩ := List.length_eq_one.mp hLen
        have hi0 : i = 0 := by omega
        subst hi0
        cases o <;>
          simp [stepEv, hi, applyOutcome, hr, hSt, seqInv, exactlyOneVariant,
            List.eraseIdx]

/-- C3, counterexample: with two overlapping submissions, a failed stale
resolution followed by a success leaves a `Failed` message and a `Succeeded`
result present at the same time — the cells do not encode exactly one of the
four variants. -/
theorem mixed_state_counterexample :
    (runEv exEnv initModel
      [.submit exInpA, .submit exInpB,
       .resolve 0 (.httpFailure (.parsed (some "boom"))),
       .resolve 0 (.success exRespB)]).st.error = some "boom" ∧
    (runEv exEnv initModel
      [.submit exInpA, .submit exInpB,
       .resolve 0 (.httpFailure (.parsed (some "boom"))),
       .resolve 0 (.success exRespB)]).st.data = some exRespB ∧
    exactlyOneVariant (runEv exEnv initModel
      [.submit exInpA, .submit exInpB,
       .resolve 0 (.httpFailure (.parsed (some "boom"))),
       .resolve 0 (.success exRespB)]).st = false := by decide

/-- C3, amended: on every sequential trace — each response arrives before the
next submission, which is the only regime in which the single mutable cell
triple is written by one attempt at a time — the cells encode exactly one of
the four variants `Idle`, `Pending`, `Succeeded`, `Failed`.  With overlapping
attempts the encoding can hold a `Failed` message and a `Succeeded` result
simultaneously (see the counterexample). -/
theorem sequential_exactly_one (env : EnvCfg) (tr : List Ev)
    (h : seqTrace env initModel tr = true) :
    exactlyOneVariant (runEv env initModel tr).st = true :=
  seqInv_exactlyOne _ (seqInv_run env tr initModel (by decide) h)

/-- C3 witness. -/
theorem sequential_exactly_one_witness :
    seqTrace exEnv initModel
      [.submit exInpA, .resolve 0 (.success exRespA), .submit exInpB,
       .resolve 0 (.httpFailure .unparseable)] = true ∧
    exactlyOneVariant (runEv exEnv initModel
      [.submit exInpA, .resolve 0 (.success exRespA), .submit exInpB,
       .resolve 0 (.httpFailure .unparseable)]).st = true :=
  ⟨by decide,
    sequential_exactly_one exEnv
      [.submit exInpA, .resolve 0 (.success exRespA), .submit exInpB,
       .resolve 0 (.httpFailure .unparseable)] (by decide)⟩

/-- C4: whenever the start or the end timestamp string does not parse to a
real calendar date/time, the submission transitions directly to `Failed`
carrying the validation message `"Invalid date/time format"`, and the
in-flight list is untouched: no request is ever handed to the transport. -/
theorem invalid_timestamp_no_call (env : EnvCfg) (inp : FormInputs) (m : Model)
    (htz : env.tzMin.natAbs ≤ 1440)
    (h : parseLocalFields inp.startTime.data = none ∨
         parseLocalFields inp.endTime.data = none) :
    stepEv env m (.submit inp) =
      ⟨⟨false, some "Invalid date/time format", none⟩, m.pending⟩ := by
  rcases h with h | h
  · have hS : toUTCISOString env.tzMin inp.startTime =
        .error "Invalid date/time format" := by
      simp [toUTCISOString, h]
    simp [stepEv, submitStep, hS]
  · have hE : toUTCISOString env.tzMin inp.endTime =
        .error "Invalid date/time format" := by
      simp [toUTCISOString, h]
    cases hS : parseLocalFields inp.startTime.data with
    | none =>
      have hS' : toUTCISOString env.tzMin inp.startTime =
          .error "Invalid date/time format" := by
        simp [toUTCISOString, hS]
      simp [stepEv, submitStep, hS']
    | some dtS =>
      obtain ⟨outS, hok, -, -⟩ := toUTCISOString_ok env.tzMin inp.startTime dtS htz hS
      simp [stepEv, submitStep, hok, hE]

/-- C4 witness: February 30 is not a real calendar date. -/
theorem invalid_timestamp_no_call_witness :
    (exEnv.tzMin.natAbs ≤ 1440 ∧
     parseLocalFields ("2026-02-30T00:00:00" : String).data = none) ∧
    stepEv exEnv initModel
      (.submit ⟨"25544", "2026-02-30T00:00:00", "2026-01-01T00:00:00", "60"⟩) =
      ⟨⟨false, some "Invalid date/time format", none⟩, initModel.pending⟩ :=
  ⟨⟨by decide, by decide⟩,
    invalid_timestamp_no_call exEnv
      ⟨"25544", "2026-02-30T00:00:00", "2026-01-01T00:00:00", "60"⟩ initModel
      (by decide) (Or.inl (by decide))⟩

/-- C5: every valid `datetime-local` input normalizes to a fixed-offset UTC
timestamp string with whole-second precision and no fractional component (no
decimal point anywhere in it), and parsing that output back yields exactly
the absolute instant the local input denoted in the process zone
(parse-format-parse round-trip).  The zone offset is bounded by the
real-world ±24 h. -/
theorem normalizer_round_trip (tz : Int) (s : String) (dt : DT)
    (htz : tz.natAbs ≤ 1440) (hp : parseLocalFields s.data = some dt) :
    ∃ out, toUTCISOString tz s = Except.ok out ∧
      parseAbsolute out.data = some (dtToEpoch dt - 60 * tz) ∧ '.' ∉ out.data :=
  toUTCISOString_ok tz s dt htz hp

/-- C5 witness: noon JST on 2026-01-01. -/
theorem normalizer_round_trip_witness :
    ((540 : Int).natAbs ≤ 1440 ∧
     parseLocalFields ("2026-01-01T12:34:56" : String).data =
       some ⟨2026, 1, 1, 12, 34, 56⟩) ∧
    (∃ out, toUTCISOString 540 "2026-01-01T12:34:56" = Except.ok out ∧
      parseAbsolute out.data =
        some (dtToEpoch ⟨2026, 1, 1, 12, 34, 56⟩ - 60 * 540) ∧ '.' ∉ out.data) :=
  ⟨⟨by decide, by decide⟩,
    normalizer_round_trip 540 "2026-01-01T12:34:56" ⟨2026, 1, 1, 12, 34, 56⟩
      (by decide) (by decide)⟩

/-- C7: for every validated input tuple the built request targets the
endpoint `/altitude` and carries exactly the four query parameters `n`,
`start`, `end`, `step_seconds` bound to those values, in insertion order; the
fetch URL is the base URL, the path, and the `&`-joined percent-encoded
`key=value` pairs.  Construction is pure data manipulation — the request is
only appended to the in-flight list, and no transport is involved until a
resolution event. -/
theorem request_descriptor (env : EnvCfg) (inp : FormInputs) (m : Model)
    (sOut eOut : String)
    (hS : toUTCISOString env.tzMin inp.startTime = .ok sOut)
    (hE : toUTCISOString env.tzMin inp.endTime = .ok eOut) :
    stepEv env m (.submit inp) =
      ⟨⟨true, none, none⟩, m.pending ++
        [⟨env.backendUrl, "/altitude",
          [("n", inp.noradId), ("start", sOut), ("end", eOut),
           ("step_seconds", inp.stepSeconds)]⟩]⟩ ∧
    requestUrl (mkRequest env.backendUrl inp.noradId sOut eOut inp.stepSeconds) =
      env.backendUrl ++ "/altitude" ++ "?" ++
        (encodeComponent "n" ++ "=" ++ encodeComponent inp.noradId ++ "&" ++
          (encodeComponent "start" ++ "=" ++ encodeComponent sOut ++ "&" ++
            (encodeComponent "end" ++ "=" ++ encodeComponent eOut ++ "&" ++
              (encodeComponent "step_seconds" ++ "=" ++
                encodeComponent inp.stepSeconds)))) := by
  constructor
  · simp [stepEv, submitStep, hS, hE, mkRequest]
  · rfl

/-- C7 witness: the concrete request and its percent-encoded URL (colons in
the timestamps encode to `%3A`). -/
theorem request_descriptor_witness :
    (toUTCISOString exEnv.tzMin exInpA.startTime = .ok "2025-12-31T15:00:00Z" ∧
     toUTCISOString exEnv.tzMin exInpA.endTime = .ok "2025-12-31T21:00:00Z") ∧
    stepEv exEnv initModel (.submit exInpA) =
      ⟨⟨true, none, none⟩, initModel.pending ++
        [⟨exEnv.backendUrl, "/altitude",
          [("n", exInpA.noradId), ("start", "2025-12-31T15:00:00Z"),
           ("end", "2025-12-31T21:00:00Z"), ("step_seconds", exInpA.stepSeconds)]⟩]⟩ ∧
    requestUrl (mkRequest "http://127.0.0.1:8000" "25544" "2025-12-31T15:00:00Z"
        "2025-12-31T21:00:00Z" "60") =
      "http://127.0.0.1:8000/altitude?n=25544&start=2025-12-31T15%3A00%3A00Z&end=2025-12-31T21%3A00%3A00Z&step_seconds=60" :=
  ⟨⟨by rfl, by rfl⟩,
    (request_descriptor exEnv exInpA initModel "2025-12-31T15:00:00Z"
      "2025-12-31T21:00:00Z" (by rfl) (by rfl)).1,
    by decide⟩

/-- C9, counterexample: the step input declares `required min="1" max="3600"`
(and the catalog-id input `min="1"`), so a standard browser's constraint
validation rejects a submission with `stepSeconds` 0 or 5000 before the
handler runs: no request is ever created, refuting "is sent to the
collaborator … no local range check rejects it". -/
theorem form_blocks_counterexample :
    formConstraintsOk ⟨"25544", "2026-01-01T00:00:00", "2026-01-01T06:00:00", "5000"⟩
        = false ∧
    formConstraintsOk ⟨"25544", "2026-01-01T00:00:00", "2026-01-01T06:00:00", "0"⟩
        = false ∧
    formSubmit exEnv ⟨"25544", "2026-01-01T00:00:00", "2026-01-01T06:00:00", "5000"⟩
        initModel = initModel ∧
    formSubmit exEnv ⟨"25544", "2026-01-01T00:00:00", "2026-01-01T06:00:00", "0"⟩
        initModel = initModel := by decide

/-- C9, amended: the submit handler itself performs no range check — whenever
it does run with `stepSeconds` "0" or "5000" (browser validation bypassed or
unsupported), the value is passed to the collaborator unmodified as the
`step_seconds` parameter, and the failure message derived from any non-2xx
response is stored verbatim in the error cell; the local rejection of the
claim's counterexample lives only in the form's declared `min`/`max`
attributes, not in the handler. -/
theorem step_pass_through (env : EnvCfg) (inp : FormInputs) (m : Model)
    (sOut eOut : String)
    (_hstep : inp.stepSeconds = "0" ∨ inp.stepSeconds = "5000")
    (hS : toUTCISOString env.tzMin inp.startTime = .ok sOut)
    (hE : toUTCISOString env.tzMin inp.endTime = .ok eOut) :
    (stepEv env m (.submit inp)).pending =
      m.pending ++ [⟨env.backendUrl, "/altitude",
        [("n", inp.noradId), ("start", sOut), ("end", eOut),
         ("step_seconds", inp.stepSeconds)]⟩] ∧
    (∀ b st, (applyOutcome (.httpFailure b) st).error = some (errMessageOf b)) := by
  constructor
  · simp [stepEv, submitStep, hS, hE, mkRequest]
  · intro b st
    rfl

/-- C9 witness. -/
theorem step_pass_through_witness :
    ((FormInputs.mk "25544" "2026-01-01T00:00:00" "2026-01-01T06:00:00" "5000").stepSeconds
        = "5000" ∧
     toUTCISOString exEnv.tzMin "2026-01-01T00:00:00" = .ok "2025-12-31T15:00:00Z" ∧
     toUTCISOString exEnv.tzMin "2026-01-01T06:00:00" = .ok "2025-12-31T21:00:00Z") ∧
    (stepEv exEnv initModel
      (.submit ⟨"25544", "2026-01-01T00:00:00", "2026-01-01T06:00:00", "5000"⟩)).pending =
      initModel.pending ++ [⟨exEnv.backendUrl, "/altitude",
        [("n", "25544"), ("start", "2025-12-31T15:00:00Z"),
         ("end", "2025-12-31T21:00:00Z"), ("step_seconds", "5000")]⟩] :=
  ⟨⟨by rfl, by rfl, by rfl⟩,
    (step_pass_through exEnv
      ⟨"25544", "2026-01-01T00:00:00", "2026-01-01T06:00:00", "5000"⟩ initModel
      "2025-12-31T15:00:00Z" "2025-12-31T21:00:00Z" (Or.inr rfl)
      (by rfl) (by rfl)).1⟩

end SatAlt
